import Mathlib

/-!
Shallow embedding of `src/import.py` (CSV-to-PDF credential-sheet generator)
and proofs about its specification.

Strings are Lean `String`s; Python string operations (`strip`, `split`,
`re.sub`, truthiness) are translated to explicit functions on `List Char`.
The pandas data frame is a `List (List String)` (cells normalised to `""` by
`fillna('')` in the source).  Fallible operations (positional indexing that
can raise `IndexError`, CSV decoding, PDF building) are modelled with
`Option` / explicit outcome types.
-/

/-- Whitespace class used by Python's `str.strip()` (modelled by
`Char.isWhitespace`). -/
def pySpace (c : Char) : Bool := c.isWhitespace

/-- Remove leading whitespace from a character list. -/
def ltrim (l : List Char) : List Char := l.dropWhile pySpace

/-- Remove trailing whitespace from a character list. -/
def rtrim (l : List Char) : List Char := (ltrim l.reverse).reverse

/-- Strip leading and trailing whitespace, as a list operation. -/
def stripList (l : List Char) : List Char := rtrim (ltrim l)

/-- Python `s.strip()`: remove leading and trailing whitespace. -/
def pyStrip (s : String) : String := String.mk (stripList s.data)

/-- Python string truthiness: a `str` is truthy iff it is non-empty. -/
def pyTruthy (s : String) : Bool := s ≠ ""

/-- The character class of `re.sub(r'[\\/*?:"<>|]', '_', ...)` in
`sanitize_filename`. -/
def badFilenameChar (c : Char) : Bool :=
  c = '\\' || c = '/' || c = '*' || c = '?' || c = ':' ||
  c = '"' || c = '<' || c = '>' || c = '|'

/-- `sanitize_filename` from the source: every character matching the class
`[\\/*?:"<>|]` is replaced by an underscore. -/
def sanitize_filename (filename : String) : String :=
  String.mk (filename.data.map (fun c => if badFilenameChar c then '_' else c))

/-- Python `s.split(sep)` for a one-character separator, on character lists.
`pySplit c l` is the list of chunks of `l` delimited by `c`; it is always
non-empty. -/
def pySplit (c : Char) : List Char → List (List Char)
  | [] => [[]]
  | x :: xs =>
    match pySplit c xs with
    | [] => [[]]
    | h :: t => if x = c then [] :: h :: t else (x :: h) :: t

/-- `email.split('@')[0]` from the source: the account identifier derived
from the account key. -/
def account_name (email : String) : String :=
  String.mk ((pySplit '@' email.data).headD [])

-- Basic facts about stripping.

theorem ltrim_idem (l : List Char) : ltrim (ltrim l) = ltrim l := by
  induction l with
  | nil => rfl
  | cons x xs ih =>
    by_cases h : pySpace x
    · simpa [ltrim, List.dropWhile_cons, h] using ih
    · simp [ltrim, List.dropWhile_cons, h]

theorem rtrim_idem (l : List Char) : rtrim (rtrim l) = rtrim l := by
  simp [rtrim, List.reverse_reverse, ltrim_idem]

/-- The head of a list equal to its own `ltrim` is not whitespace. -/
theorem head_not_space_of_ltrim_eq (y : Char) (ys : List Char)
    (h : ltrim (y :: ys) = y :: ys) : pySpace y = false := by
  cases hy : pySpace y with
  | false => rfl
  | true =>
    exfalso
    have h1 : ltrim ys = y :: ys := by
      have h0 : ltrim (y :: ys) = ltrim ys := by
        simp [ltrim, List.dropWhile_cons, hy]
      rw [← h0, h]
    have h2 : (ltrim ys).length ≤ ys.length :=
      List.IsSuffix.length_le (List.dropWhile_suffix pySpace)
    rw [h1, List.length_cons] at h2
    omega

/-- A list with no leading whitespace keeps that property after `rtrim`. -/
theorem ltrim_rtrim_of_ltrim_eq (l : List Char) (h : ltrim l = l) :
    ltrim (rtrim l) = rtrim l := by
  cases hr : rtrim l with
  | nil => rfl
  | cons y ys =>
    have hsplit : l = rtrim l ++ (l.reverse.takeWhile pySpace).reverse := by
      calc l = l.reverse.reverse := l.reverse_reverse.symm
        _ = (l.reverse.takeWhile pySpace ++ l.reverse.dropWhile pySpace).reverse := by
              rw [List.takeWhile_append_dropWhile]
        _ = (l.reverse.dropWhile pySpace).reverse ++ (l.reverse.takeWhile pySpace).reverse := by
              rw [List.reverse_append]
        _ = rtrim l ++ (l.reverse.takeWhile pySpace).reverse := rfl
    have hl : l = y :: (ys ++ (l.reverse.takeWhile pySpace).reverse) := by
      conv_lhs => rw [hsplit]
      rw [hr, List.cons_append]
    have hy : pySpace y = false := by
      apply head_not_space_of_ltrim_eq y (ys ++ (l.reverse.takeWhile pySpace).reverse)
      rw [← hl, h, hl]
    simp [ltrim, List.dropWhile_cons, hy]

theorem stripList_idem (l : List Char) : stripList (stripList l) = stripList l := by
  unfold stripList
  rw [ltrim_rtrim_of_ltrim_eq (ltrim l) (ltrim_idem l), rtrim_idem]

theorem pyStrip_idem (s : String) : pyStrip (pyStrip s) = pyStrip s := by
  simp [pyStrip, stripList_idem]

-- Facts about pySplit.

theorem pySplit_ne_nil (c : Char) (l : List Char) : pySplit c l ≠ [] := by
  induction l with
  | nil => simp [pySplit]
  | cons x xs ih =>
    unfold pySplit
    cases h : pySplit c xs with
    | nil => simp
    | cons hh tt =>
      by_cases hx : x = c <;> simp [hx]

/-- The head of Python `split` is the prefix of the list before the first
occurrence of the separator. -/
theorem pySplit_headD (c : Char) (l : List Char) :
    (pySplit c l).headD [] = l.takeWhile (fun x => x ≠ c) := by
  induction l with
  | nil => rfl
  | cons x xs ih =>
    unfold pySplit
    cases h : pySplit c xs with
    | nil => exact absurd h (pySplit_ne_nil c xs)
    | cons hh tt =>
      by_cases hx : x = c
      · simp [hx, List.takeWhile_cons]
      · rw [h] at ih
        simp only [List.headD_cons] at ih
        simp [hx, List.takeWhile_cons, ih]

-- ## Record segmenter (the window loop of `create_pdf_from_csv`)

/-- One credential record: `{"name": ..., "id": ..., "pass": ..., "serial": ...}`
as appended to `textbook_data` in the source. -/
structure CredentialRecord where
  name : String
  id : String
  pass : String
  serial : String
deriving DecidableEq

/-- `row.iloc[i].strip() if row.iloc[i] else ""` from the source: strip the
cell when it is truthy (non-empty), else the empty string. -/
def stripCell (c : String) : String :=
  if pyTruthy c then pyStrip c else ""

theorem stripCell_eq_pyStrip (c : String) : stripCell c = pyStrip c := by
  by_cases h : c = ""
  · subst h; rfl
  · simp [stripCell, pyTruthy, h]

/-- The body of one iteration of the window loop: strip the four cells of the
window and keep the record only when both `textbook_name` and `user_id` are
truthy (`if textbook_name and user_id`). -/
def windowRecord (c0 c1 c2 c3 : String) : Option CredentialRecord :=
  let textbook_name := stripCell c0
  let user_id := stripCell c1
  let password := stripCell c2
  let serial_code := stripCell c3
  if pyTruthy textbook_name ∧ pyTruthy user_id then
    some { name := textbook_name, id := user_id, pass := password, serial := serial_code }
  else
    none

/-- The window loop `while col_index + 3 < len(row)` of the source, with cell
access `row.iloc[...]` modelled by `List.getElem?` (`none` = `IndexError`).
Returns `none` iff an index error would be raised. -/
def processWindows (row : List String) (col_index : Nat) :
    Option (List CredentialRecord) :=
  if h : col_index + 3 < row.length then
    match row[col_index]?, row[col_index + 1]?, row[col_index + 2]?, row[col_index + 3]? with
    | some c0, some c1, some c2, some c3 =>
      match processWindows row (col_index + 4) with
      | none => none
      | some rest =>
        match windowRecord c0 c1 c2 c3 with
        | some r => some (r :: rest)
        | none => some rest
    | _, _, _, _ => none
  else
    some []
termination_by row.length - col_index
decreasing_by omega

/-- Executable companion of `processWindows`: the same window loop phrased
structurally on the list of cells at offsets `col_index, col_index+1, ...`. -/
def processCells : List String → List CredentialRecord
  | c0 :: c1 :: c2 :: c3 :: rest =>
    match windowRecord c0 c1 c2 c3 with
    | some r => r :: processCells rest
    | none => processCells rest
  | _ => []

/-- The index-based loop never raises and computes exactly the structural
chunked traversal of the cells from `col_index` on. -/
theorem processWindows_eq (row : List String) (col_index : Nat) :
    processWindows row col_index = some (processCells (row.drop col_index)) := by
  rw [processWindows]
  split
  · next h =>
    have h0 : col_index < row.length := by omega
    have h1 : col_index + 1 < row.length := by omega
    have h2 : col_index + 2 < row.length := by omega
    have h3 : col_index + 3 < row.length := by omega
    have hd : row.drop col_index =
        row[col_index] :: row[col_index + 1] :: row[col_index + 2] ::
          row[col_index + 3] :: row.drop (col_index + 4) := by
      rw [List.drop_eq_getElem_cons h0, List.drop_eq_getElem_cons h1,
        List.drop_eq_getElem_cons h2, List.drop_eq_getElem_cons h3]
    rw [List.getElem?_eq_getElem h0, List.getElem?_eq_getElem h1,
      List.getElem?_eq_getElem h2, List.getElem?_eq_getElem h3]
    have ih := processWindows_eq row (col_index + 4)
    rw [ih, hd]
    simp only [processCells]
    cases windowRecord row[col_index] row[col_index + 1] row[col_index + 2]
        row[col_index + 3] with
    | none => rfl
    | some r => rfl
  · next h =>
    have hlen : (row.drop col_index).length < 4 := by
      simp [List.length_drop]; omega
    match hd : row.drop col_index with
    | [] => rfl
    | [_] => rfl
    | [_, _] => rfl
    | [_, _, _] => rfl
    | _ :: _ :: _ :: _ :: _ =>
      exfalso
      rw [hd] at hlen
      simp [List.length_cons] at hlen
      omega
termination_by row.length - col_index
decreasing_by omega

/-- The trailing remainder shorter than one window width contributes nothing. -/
theorem processCells_append_remainder (l extra : List String)
    (hl : l.length % 4 = 0) (hextra : extra.length < 4) :
    processCells (l ++ extra) = processCells l := by
  match l with
  | [] =>
    simp only [List.nil_append]
    match extra, hextra with
    | [], _ => rfl
    | [_], _ => rfl
    | [_, _], _ => rfl
    | [_, _, _], _ => rfl
  | [_] => simp at hl
  | [_, _] => simp at hl
  | [_, _, _] => simp at hl
  | c0 :: c1 :: c2 :: c3 :: rest =>
    have hrest : rest.length % 4 = 0 := by
      simp [List.length_cons] at hl
      omega
    simp only [List.cons_append, processCells, List.append_eq]
    rw [processCells_append_remainder rest extra hrest hextra]

-- ## Batch driver (`create_pdf_from_csv`)

/-- Counters and effect log of one run: `total_files`, `skipped_rows`, the
paths of successfully written PDFs, and the error lines printed for failed
`doc.build` calls (recorded by output filename). -/
structure BatchState where
  total_files : Nat
  skipped_rows : Nat
  outputs : List String
  errors : List String
deriving DecidableEq

/-- `os.path.join(output_folder, pdf_filename)` for a POSIX directory path
with no trailing separator. -/
def pathJoin (dir file : String) : String := dir ++ "/" ++ file

/-- `sanitize_filename(f"{account_name}_ライセンス情報.pdf")` from the source:
the output filename derived from the account key. -/
def pdf_filename_of (email : String) : String :=
  sanitize_filename (account_name email ++ "_ライセンス情報.pdf")

/-- One iteration of the row loop of `create_pdf_from_csv`.  `build_ok`
models whether `doc.build` succeeds for a given output filename; `none`
models an uncaught exception (`IndexError` on `row.iloc`). -/
def runRow (build_ok : String → Bool) (output_folder : String)
    (row : List String) (st : BatchState) : Option BatchState :=
  match row[0]? with
  | none => none
  | some email =>
    if ¬ pyTruthy email ∨ ¬ pyTruthy (pyStrip email) then
      some { st with skipped_rows := st.skipped_rows + 1 }
    else
      let pdf_filename := pdf_filename_of email
      let pdf_path := pathJoin output_folder pdf_filename
      match processWindows row 1 with
      | none => none
      | some textbook_data =>
        if textbook_data = [] then
          some { st with skipped_rows := st.skipped_rows + 1 }
        else if build_ok pdf_filename then
          some { st with total_files := st.total_files + 1,
                         outputs := st.outputs ++ [pdf_path] }
        else
          some { st with errors := st.errors ++ [pdf_filename] }

/-- The row loop `for index in range(1, len(df))` over the data rows. -/
def runRows (build_ok : String → Bool) (output_folder : String) :
    List (List String) → BatchState → Option BatchState
  | [], st => some st
  | row :: rest, st =>
    match runRow build_ok output_folder row st with
    | none => none
    | some st' => runRows build_ok output_folder rest st'

/-- Outcome of one `pd.read_csv(..., encoding=...)` attempt: a table, a
`UnicodeDecodeError`, or any other exception (e.g. the file cannot be
opened). -/
inductive ReadOutcome where
  | ok (table : List (List String))
  | unicodeError
  | otherError
deriving DecidableEq

/-- The decoding ladder of the source: try UTF-8 first; on
`UnicodeDecodeError` retry with Shift-JIS; any other failure, or a failure
of the retry, aborts (`none`). -/
def read_csv_decode (utf8 sjis : ReadOutcome) : Option (List (List String)) :=
  match utf8 with
  | .ok table => some table
  | .unicodeError =>
    match sjis with
    | .ok table => some table
    | _ => none
  | .otherError => none

/-- Result of a whole run: an early fatal abort (before any document is
written), a completed batch, or an uncaught exception. -/
inductive RunResult where
  | aborted
  | completed (st : BatchState)
  | crashed
deriving DecidableEq

/-- The PDF files written by a run. -/
def outputFiles : RunResult → List String
  | .completed st => st.outputs
  | _ => []

/-- `create_pdf_from_csv` from the source, with the interactive path
selection elided (the caller supplies `output_folder`), the CSV read
modelled by per-encoding outcomes, and `doc.build` modelled by `build_ok`. -/
def create_pdf_from_csv (utf8 sjis : ReadOutcome) (build_ok : String → Bool)
    (output_folder : String) : RunResult :=
  match read_csv_decode utf8 sjis with
  | none => .aborted
  | some df =>
    if df.length < 2 then .aborted
    else
      match runRows build_ok output_folder (df.drop 1)
          { total_files := 0, skipped_rows := 0, outputs := [], errors := [] } with
      | none => .crashed
      | some st => .completed st

-- ## Font resolver (`register_japanese_font`)

/-- One candidate TTF font file: its path, whether `os.path.exists` finds it,
and whether `pdfmetrics.registerFont(TTFont(...))` would succeed on it. -/
structure FontCandidate where
  path : String
  onDisk : Bool
  registerOk : Bool
deriving DecidableEq

/-- Platform state seen by `register_japanese_font`: whether CID registration
succeeds, whether `Japan-Font` is already registered, and the platform's
candidate font files. -/
structure FontEnv where
  cidOk : Bool
  alreadyRegistered : Bool
  fontPaths : List FontCandidate
deriving DecidableEq

/-- The `for font_path in font_paths` loop: skip absent files, return
`Japan-Font` on the first successful registration, and log a diagnostic for
every registration that was attempted but failed. -/
def tryFontPaths : List FontCandidate → Option String × List String
  | [] => (none, [])
  | fc :: rest =>
    if fc.onDisk then
      if fc.registerOk then (some "Japan-Font", [])
      else
        let r := tryFontPaths rest
        (r.1, fc.path :: r.2)
    else tryFontPaths rest

/-- `register_japanese_font` from the source, over an explicit platform
state.  Returns the chosen font name and the list of diagnostics printed for
failures.  Every exception of the source is caught inside the function, so
the embedding is a total function. -/
def register_japanese_font (env : FontEnv) : String × List String :=
  if env.cidOk then ("HeiseiKakuGo-W5", [])
  else
    let log0 := ["CID font registration error"]
    if env.alreadyRegistered then ("Japan-Font", log0)
    else
      match tryFontPaths env.fontPaths with
      | (some f, log) => (f, log0 ++ log)
      | (none, log) => (("HeiseiKakuGo-W5"), log0 ++ log ++ ["no TTF font found, using CID font"])

theorem tryFontPaths_found (fcs : List FontCandidate) (f : String)
    (h : (tryFontPaths fcs).1 = some f) : f = "Japan-Font" := by
  induction fcs with
  | nil => simp [tryFontPaths] at h
  | cons fc rest ih =>
    by_cases hd : fc.onDisk = true
    · by_cases hr : fc.registerOk = true
      · simp [tryFontPaths, hd, hr] at h
        exact h.symm
      · simp [tryFontPaths, hd, hr] at h
        exact ih h
    · simp [tryFontPaths, hd] at h
      exact ih h

theorem tryFontPaths_log_of_none (fcs : List FontCandidate)
    (h : (tryFontPaths fcs).1 = none) :
    (tryFontPaths fcs).2 = (fcs.filter fun fc => fc.onDisk).map FontCandidate.path := by
  induction fcs with
  | nil => simp [tryFontPaths]
  | cons fc rest ih =>
    by_cases hd : fc.onDisk = true
    · by_cases hr : fc.registerOk = true
      · simp [tryFontPaths, hd, hr] at h
      · simp [tryFontPaths, hd, hr] at h ⊢
        exact ih h
    · simp [tryFontPaths, hd] at h ⊢
      exact ih h

theorem tryFontPaths_none_of_all_fail (fcs : List FontCandidate)
    (h : ∀ fc ∈ fcs, fc.onDisk = false ∨ fc.registerOk = false) :
    (tryFontPaths fcs).1 = none := by
  induction fcs with
  | nil => rfl
  | cons fc rest ih =>
    have hrest : ∀ fc ∈ rest, fc.onDisk = false ∨ fc.registerOk = false :=
      fun x hx => h x (List.mem_cons_of_mem fc hx)
    rcases h fc (List.mem_cons_self fc rest) with hd | hr
    · simp [tryFontPaths, hd]
      exact ih hrest
    · by_cases hd : fc.onDisk = true
      · simp [tryFontPaths, hd, hr]
        exact ih hrest
      · simp [tryFontPaths, hd]
        exact ih hrest

-- ## Helper lemmas shared by the claim theorems

theorem pyStrip_empty : pyStrip "" = "" := rfl

theorem pyTruthy_stripCell (c : String) :
    pyTruthy (stripCell c) = true ↔ pyStrip c ≠ "" := by
  rw [stripCell_eq_pyStrip]
  simp [pyTruthy]

theorem windowRecord_def (c0 c1 c2 c3 : String) :
    windowRecord c0 c1 c2 c3 =
      if pyTruthy (stripCell c0) = true ∧ pyTruthy (stripCell c1) = true then
        some { name := stripCell c0, id := stripCell c1,
               pass := stripCell c2, serial := stripCell c3 }
      else none := rfl

/-- Every field of a record kept by `processCells` is a stripped cell. -/
theorem processCells_stripped (l : List String) (r : CredentialRecord)
    (hr : r ∈ processCells l) :
    pyStrip r.name = r.name ∧ pyStrip r.id = r.id ∧
    pyStrip r.pass = r.pass ∧ pyStrip r.serial = r.serial := by
  match l with
  | [] => simp [processCells] at hr
  | [_] => simp [processCells] at hr
  | [_, _] => simp [processCells] at hr
  | [_, _, _] => simp [processCells] at hr
  | c0 :: c1 :: c2 :: c3 :: rest =>
    simp only [processCells] at hr
    cases hw : windowRecord c0 c1 c2 c3 with
    | none =>
      rw [hw] at hr
      exact processCells_stripped rest r hr
    | some w =>
      rw [hw] at hr
      rcases List.mem_cons.mp hr with hrw | hrrest
      · subst hrw
        rw [windowRecord_def] at hw
        split at hw
        · cases hw
          simp only [stripCell_eq_pyStrip]
          exact ⟨pyStrip_idem c0, pyStrip_idem c1, pyStrip_idem c2, pyStrip_idem c3⟩
        · cases hw
      · exact processCells_stripped rest r hrrest

-- ## Claim theorems

/-- C1.  A field-group window yields a `CredentialRecord` iff both the name
cell and the id cell are non-empty after stripping; replacing the password
and serial cells by anything else does not change whether a record is
produced. -/
theorem windowRecord_iff_name_id (c0 c1 c2 c3 c2' c3' : String) :
    ((windowRecord c0 c1 c2 c3).isSome = true ↔
      (pyStrip c0 ≠ "" ∧ pyStrip c1 ≠ "")) ∧
    (windowRecord c0 c1 c2 c3).isSome = (windowRecord c0 c1 c2' c3').isSome := by
  constructor
  · rw [windowRecord_def]
    split
    · next h =>
      simp only [Option.isSome_some, true_iff]
      exact ⟨(pyTruthy_stripCell c0).mp h.1, (pyTruthy_stripCell c1).mp h.2⟩
    · next h =>
      simp only [Option.isSome_none, Bool.false_eq_true, false_iff]
      intro hc
      exact h ⟨(pyTruthy_stripCell c0).mpr hc.1, (pyTruthy_stripCell c1).mpr hc.2⟩
  · rw [windowRecord_def, windowRecord_def]
    split
    · next h => simp [windowRecord_def, h]
    · next h => simp [windowRecord_def, h]

/-- C1 witness: a window with empty password and serial still yields a
record when name and id are non-empty after trimming. -/
theorem windowRecord_iff_name_id_witness :
    (windowRecord " a " " b " "" "").isSome = true :=
  (windowRecord_iff_name_id " a " " b " "" "" "x" "y").1.mpr (by decide)

/-- C6.  The window loop never raises an index error: it always returns the
structural chunked traversal of the cells from its start offset; when no
full window of four cells exists it returns the empty record list; and a
trailing remainder shorter than one window contributes nothing. -/
theorem processWindows_no_index_error :
    (∀ (row : List String) (ci : Nat),
        processWindows row ci = some (processCells (row.drop ci))) ∧
    (∀ (row : List String) (ci : Nat), row.length ≤ ci + 3 →
        processWindows row ci = some []) ∧
    (∀ (l extra : List String), l.length % 4 = 0 → extra.length < 4 →
        processCells (l ++ extra) = processCells l) := by
  refine ⟨processWindows_eq, ?_, processCells_append_remainder⟩
  intro row ci h
  rw [processWindows]
  split
  · next hlt => omega
  · rfl

/-- C6 witness: a row consisting of a single cell (so no full window after
the first cell) yields no records and no error. -/
theorem processWindows_no_index_error_witness :
    processWindows ["a@x.com"] 1 = some [] :=
  processWindows_no_index_error.2.1 ["a@x.com"] 1 (by decide)

/-- C7.  `sanitize_filename` is idempotent. -/
theorem sanitize_filename_idem (s : String) :
    sanitize_filename (sanitize_filename s) = sanitize_filename s := by
  show String.mk (List.map _ (List.map _ s.data)) = _
  rw [List.map_map]
  congr 1
  apply List.map_congr_left
  intro c _
  show (fun c => if badFilenameChar c then '_' else c)
      ((fun c => if badFilenameChar c then '_' else c) c) = _
  by_cases h : badFilenameChar c = true
  · simp only [h, if_true]
    decide
  · simp only [h]
    simp [h]

/-- C8.  The account identifier `email.split('@')[0]` is the part of the key
before the first `@`; a key without `@` is used whole, with no error. -/
theorem account_name_before_at (email : String) :
    (account_name email).data = email.data.takeWhile (fun x => x ≠ '@') ∧
    ('@' ∉ email.data → account_name email = email) := by
  have hdata : (account_name email).data = email.data.takeWhile (fun x => x ≠ '@') := by
    show (pySplit '@' email.data).headD [] = _
    exact pySplit_headD '@' email.data
  refine ⟨hdata, ?_⟩
  intro h
  have ht : email.data.takeWhile (fun x => x ≠ '@') = email.data := by
    apply List.takeWhile_eq_self_iff.mpr
    intro x hx
    simp only [ne_eq, decide_eq_true_eq]
    intro hxa
    exact h (hxa ▸ hx)
  cases email with
  | mk data =>
    show String.mk ((pySplit '@' data).headD []) = String.mk data
    congr 1
    have := pySplit_headD '@' data
    rw [this]
    exact ht

/-- C8 witness: a key with no `@` is used whole as the identifier. -/
theorem account_name_before_at_witness : account_name "abc" = "abc" :=
  (account_name_before_at "abc").2 (by decide)

/-- C9.  The font resolver is total (every registration failure is caught):
it always returns one of the two usable handles; when the CID registration
fails, no TTF font is already registered, and every candidate is absent or
fails to register, it returns the hard-coded fallback `HeiseiKakuGo-W5`; and
on the no-success path every attempted-but-failed registration leaves a
diagnostic naming the candidate file. -/
theorem register_japanese_font_total (env : FontEnv) :
    ((register_japanese_font env).1 = "HeiseiKakuGo-W5" ∨
      (register_japanese_font env).1 = "Japan-Font") ∧
    (env.cidOk = false → env.alreadyRegistered = false →
      (∀ fc ∈ env.fontPaths, fc.onDisk = false ∨ fc.registerOk = false) →
      (register_japanese_font env).1 = "HeiseiKakuGo-W5" ∧
      ∀ p ∈ (env.fontPaths.filter (fun fc => fc.onDisk)).map FontCandidate.path,
        p ∈ (register_japanese_font env).2) := by
  constructor
  · unfold register_japanese_font
    by_cases hc : env.cidOk = true
    · simp [hc]
    · by_cases ha : env.alreadyRegistered = true
      · simp [hc, ha]
      · simp only [hc, ha, Bool.false_eq_true, if_false]
        cases hf : tryFontPaths env.fontPaths with
        | mk r log =>
          cases r with
          | none => simp
          | some f =>
            right
            have : f = "Japan-Font" := tryFontPaths_found env.fontPaths f (by rw [hf])
            simp [this]
  · intro hc ha hall
    have hnone : (tryFontPaths env.fontPaths).1 = none :=
      tryFontPaths_none_of_all_fail env.fontPaths hall
    have hlog := tryFontPaths_log_of_none env.fontPaths hnone
    unfold register_japanese_font
    simp only [hc, ha, Bool.false_eq_true, if_false]
    cases hf : tryFontPaths env.fontPaths with
    | mk r log =>
      rw [hf] at hnone hlog
      simp only at hnone hlog
      subst hnone
      constructor
      · rfl
      · intro p hp
        rw [← hlog] at hp
        exact List.mem_append_left _ (List.mem_append_right _ hp)

/-- C9 witness: with CID registration failing, nothing pre-registered, and
the single candidate file failing to register, the resolver still returns
the hard-coded fallback. -/
theorem register_japanese_font_total_witness :
    (register_japanese_font
      { cidOk := false, alreadyRegistered := false,
        fontPaths := [{ path := "meiryo.ttc", onDisk := true, registerOk := false }] }).1 =
      "HeiseiKakuGo-W5" :=
  ((register_japanese_font_total _).2 rfl rfl (by decide)).1

/-- C10.  Every record produced by the window loop stores all four
sub-fields with surrounding whitespace stripped. -/
theorem processWindows_records_stripped (row : List String) (ci : Nat)
    (recs : List CredentialRecord) (h : processWindows row ci = some recs) :
    ∀ r ∈ recs, pyStrip r.name = r.name ∧ pyStrip r.id = r.id ∧
      pyStrip r.pass = r.pass ∧ pyStrip r.serial = r.serial := by
  intro r hr
  have heq := processWindows_eq row ci
  rw [h] at heq
  have : recs = processCells (row.drop ci) := by
    injection heq
  exact processCells_stripped (row.drop ci) r (this ▸ hr)

/-- C10 witness: a window with padded cells yields a record whose stored
name is itself stripped. -/
theorem processWindows_records_stripped_witness :
    pyStrip "A" = "A" :=
  (processWindows_records_stripped ["x", " A ", "B", "C", "D"] 1
    [{ name := "A", id := "B", pass := "C", serial := "D" }]
    (by rw [processWindows_eq]; decide)
    { name := "A", id := "B", pass := "C", serial := "D" }
    (List.mem_singleton.mpr rfl)).1

-- ## Driver-level helper lemmas

theorem pyTruthy_of_pyStrip_ne (email : String) (h : pyStrip email ≠ "") :
    pyTruthy email = true := by
  by_cases he : email = ""
  · subst he; exact absurd pyStrip_empty h
  · simp [pyTruthy, he]

theorem runRow_cond_false (email : String) (h : pyStrip email ≠ "") :
    ¬ (¬ pyTruthy email = true ∨ ¬ pyTruthy (pyStrip email) = true) := by
  rintro (h1 | h2)
  · exact h1 (pyTruthy_of_pyStrip_ne email h)
  · exact h2 (by simp [pyTruthy, h])

/-- Evaluation of `runRow` on a row that reaches the PDF-building step. -/
theorem runRow_proceed (build_ok : String → Bool) (output_folder : String)
    (row : List String) (st : BatchState) (email : String)
    (recs : List CredentialRecord)
    (h0 : row[0]? = some email) (h1 : pyStrip email ≠ "")
    (h2 : processWindows row 1 = some recs) (h3 : recs ≠ []) :
    runRow build_ok output_folder row st =
      if build_ok (pdf_filename_of email) then
        some { st with total_files := st.total_files + 1,
                       outputs := st.outputs ++
                         [pathJoin output_folder (pdf_filename_of email)] }
      else
        some { st with errors := st.errors ++ [pdf_filename_of email] } := by
  unfold runRow
  rw [h0]
  simp only
  rw [if_neg (runRow_cond_false email h1), h2]
  simp only
  rw [if_neg h3]

/-- Evaluation of `runRow` on a row that is skipped. -/
theorem runRow_skips (build_ok : String → Bool) (output_folder : String)
    (row : List String) (st : BatchState) (email : String)
    (h0 : row[0]? = some email)
    (h1 : pyStrip email = "" ∨ processWindows row 1 = some []) :
    runRow build_ok output_folder row st =
      some { st with skipped_rows := st.skipped_rows + 1 } := by
  unfold runRow
  rw [h0]
  simp only
  by_cases hc : (¬ pyTruthy email = true ∨ ¬ pyTruthy (pyStrip email) = true)
  · rw [if_pos hc]
  · rw [if_neg hc]
    rcases h1 with h1 | h1
    · exfalso
      exact hc (Or.inr (by simp [pyTruthy, h1]))
    · rw [h1]
      simp

theorem runRows_cons (build_ok : String → Bool) (output_folder : String)
    (row : List String) (rest : List (List String)) (st st' : BatchState)
    (h : runRow build_ok output_folder row st = some st') :
    runRows build_ok output_folder (row :: rest) st =
      runRows build_ok output_folder rest st' := by
  conv_lhs => rw [runRows]
  rw [h]

-- ## Remaining claim theorems

/-- C2.  A data row whose first cell is empty after trimming, and a data row
whose segmentation yields no valid record, is skipped: the skip counter
increments by exactly one, nothing is written for the row, no exception is
raised, and the loop continues with the remaining rows. -/
theorem row_skipped_counted_once (build_ok : String → Bool)
    (output_folder : String) (row : List String)
    (rest : List (List String)) (st : BatchState) (email : String)
    (h0 : row[0]? = some email)
    (h1 : pyStrip email = "" ∨ processWindows row 1 = some []) :
    runRow build_ok output_folder row st =
      some { st with skipped_rows := st.skipped_rows + 1 } ∧
    runRows build_ok output_folder (row :: rest) st =
      runRows build_ok output_folder rest
        { st with skipped_rows := st.skipped_rows + 1 } := by
  have h := runRow_skips build_ok output_folder row st email h0 h1
  exact ⟨h, runRows_cons build_ok output_folder row rest st _ h⟩

/-- C2 witness: a row with a whitespace-only first cell is skipped with the
counter advanced from 0 to 1. -/
theorem row_skipped_counted_once_witness :
    runRow (fun _ => true) "out" [" ", "Math", "u1", "p1", "s1"]
        { total_files := 0, skipped_rows := 0, outputs := [], errors := [] } =
      some { total_files := 0, skipped_rows := 1, outputs := [], errors := [] } :=
  (row_skipped_counted_once (fun _ => true) "out" [" ", "Math", "u1", "p1", "s1"]
    [] _ " " rfl (Or.inl (by decide))).1

/-- C3 counterexample.  One data row with one valid record whose PDF build
fails: the failure is reported (the error log names the output filename) and
the run completes, but neither `skipped_rows` nor `total_files` counts the
failure — both stay 0, so the claim that the failure is counted in the
reported counts is false. -/
theorem build_failure_uncounted_cex :
    runRows (fun _ => false) "out" [["a@x.com", "Math", "u1", "p1", "s1"]]
        { total_files := 0, skipped_rows := 0, outputs := [], errors := [] } =
      some { total_files := 0, skipped_rows := 0, outputs := [],
             errors := ["a_ライセンス情報.pdf"] } := by
  have hw : processWindows ["a@x.com", "Math", "u1", "p1", "s1"] 1 =
      some [{ name := "Math", id := "u1", pass := "p1", serial := "s1" }] := by
    rw [processWindows_eq]; decide
  have hrow := runRow_proceed (fun _ => false) "out"
    ["a@x.com", "Math", "u1", "p1", "s1"]
    { total_files := 0, skipped_rows := 0, outputs := [], errors := [] }
    "a@x.com" [{ name := "Math", id := "u1", pass := "p1", serial := "s1" }]
    rfl (by decide) hw (by decide)
  simp only [Bool.false_eq_true, if_false] at hrow
  rw [runRows_cons (fun _ => false) "out" _ [] _ _ hrow]
  have : pdf_filename_of "a@x.com" = "a_ライセンス情報.pdf" := by decide
  rw [runRows, this]
  simp

/-- C3 as amended.  When the PDF build fails for one account, the failure is
reported with the output filename, the counters (`total_files` and
`skipped_rows`) are left unchanged — the failure is not added to the skip
count — and the batch continues with the next bundle. -/
theorem build_failure_reported_and_continues (build_ok : String → Bool)
    (output_folder : String) (row : List String) (rest : List (List String))
    (st : BatchState) (email : String) (recs : List CredentialRecord)
    (h0 : row[0]? = some email) (h1 : pyStrip email ≠ "")
    (h2 : processWindows row 1 = some recs) (h3 : recs ≠ [])
    (h4 : build_ok (pdf_filename_of email) = false) :
    runRow build_ok output_folder row st =
      some { st with errors := st.errors ++ [pdf_filename_of email] } ∧
    runRows build_ok output_folder (row :: rest) st =
      runRows build_ok output_folder rest
        { st with errors := st.errors ++ [pdf_filename_of email] } := by
  have h := runRow_proceed build_ok output_folder row st email recs h0 h1 h2 h3
  rw [h4] at h
  simp only [Bool.false_eq_true, if_false] at h
  exact ⟨h, runRows_cons build_ok output_folder row rest st _ h⟩

/-- C3 witness: concrete instance of the amended claim. -/
theorem build_failure_reported_and_continues_witness :
    runRow (fun _ => false) "out" ["a@x.com", "Math", "u1", "p1", "s1"]
        { total_files := 0, skipped_rows := 0, outputs := [], errors := [] } =
      some { total_files := 0, skipped_rows := 0, outputs := [],
             errors := ["a_ライセンス情報.pdf"] } := by
  have h := (build_failure_reported_and_continues (fun _ => false) "out"
    ["a@x.com", "Math", "u1", "p1", "s1"] []
    { total_files := 0, skipped_rows := 0, outputs := [], errors := [] }
    "a@x.com" [{ name := "Math", id := "u1", pass := "p1", serial := "s1" }]
    rfl (by decide) (by rw [processWindows_eq]; decide) (by decide) rfl).1
  rw [h]
  have : pdf_filename_of "a@x.com" = "a_ライセンス情報.pdf" := by decide
  rw [this]
  simp

/-- C4 counterexample.  The fixed filename suffix in the source is the
Japanese label `_ライセンス情報.pdf`, not the spec's `_license_info.pdf`:
for the account key `a@x.com` the produced filename differs from
`sanitize_filename("a_license_info.pdf")`. -/
theorem pdf_filename_suffix_cex :
    pdf_filename_of "a@x.com" = "a_ライセンス情報.pdf" ∧
    sanitize_filename ("a" ++ "_license_info.pdf") = "a_license_info.pdf" ∧
    pdf_filename_of "a@x.com" ≠ sanitize_filename ("a" ++ "_license_info.pdf") := by
  refine ⟨by decide, by decide, by decide⟩

/-- C4 as amended.  For every account bundle that reaches the build step,
the output filename is `sanitize_filename(account_name ++ "_ライセンス情報.pdf")`
(where `sanitize_filename` replaces each of `\ / * ? : " < > |` by an
underscore) and on a successful build the file is written into the
caller-specified output directory. -/
theorem output_filename_and_directory (build_ok : String → Bool)
    (output_folder : String) (row : List String) (st : BatchState)
    (email : String) (recs : List CredentialRecord)
    (h0 : row[0]? = some email) (h1 : pyStrip email ≠ "")
    (h2 : processWindows row 1 = some recs) (h3 : recs ≠ [])
    (h4 : build_ok (pdf_filename_of email) = true) :
    pdf_filename_of email =
      sanitize_filename (account_name email ++ "_ライセンス情報.pdf") ∧
    runRow build_ok output_folder row st =
      some { st with total_files := st.total_files + 1,
                     outputs := st.outputs ++
                       [pathJoin output_folder (pdf_filename_of email)] } := by
  have h := runRow_proceed build_ok output_folder row st email recs h0 h1 h2 h3
  rw [h4] at h
  simp only [if_true] at h
  exact ⟨rfl, h⟩

/-- C4 witness: concrete instance of the amended claim. -/
theorem output_filename_and_directory_witness :
    runRow (fun _ => true) "out" ["a@x.com", "Math", "u1", "p1", "s1"]
        { total_files := 0, skipped_rows := 0, outputs := [], errors := [] } =
      some { total_files := 1, skipped_rows := 0,
             outputs := ["out/a_ライセンス情報.pdf"], errors := [] } := by
  have h := (output_filename_and_directory (fun _ => true) "out"
    ["a@x.com", "Math", "u1", "p1", "s1"]
    { total_files := 0, skipped_rows := 0, outputs := [], errors := [] }
    "a@x.com" [{ name := "Math", id := "u1", pass := "p1", serial := "s1" }]
    rfl (by decide) (by rw [processWindows_eq]; decide) (by decide) rfl).2
  rw [h]
  have : pathJoin "out" (pdf_filename_of "a@x.com") = "out/a_ライセンス情報.pdf" := by
    decide
  rw [this]
  simp

/-- C5.  The decoder tries UTF-8 first (the Shift-JIS outcome is then
irrelevant); on a Unicode decoding failure it retries with Shift-JIS; if
both fail, or the file cannot be opened (any non-Unicode failure of the
first read), decoding yields nothing and the whole run aborts with zero
output files. -/
theorem decode_ladder_and_fatal_abort :
    (∀ (t : List (List String)) (sjis : ReadOutcome),
        read_csv_decode (.ok t) sjis = some t) ∧
    (∀ (t : List (List String)),
        read_csv_decode .unicodeError (.ok t) = some t) ∧
    (read_csv_decode .unicodeError .unicodeError = none) ∧
    (read_csv_decode .unicodeError .otherError = none) ∧
    (∀ (sjis : ReadOutcome), read_csv_decode .otherError sjis = none) ∧
    (∀ (utf8 sjis : ReadOutcome) (build_ok : String → Bool)
        (output_folder : String), read_csv_decode utf8 sjis = none →
      create_pdf_from_csv utf8 sjis build_ok output_folder = .aborted ∧
      outputFiles (create_pdf_from_csv utf8 sjis build_ok output_folder) = []) := by
  refine ⟨fun t sjis => rfl, fun t => rfl, rfl, rfl, fun sjis => rfl, ?_⟩
  intro utf8 sjis build_ok output_folder h
  unfold create_pdf_from_csv
  rw [h]
  exact ⟨rfl, rfl⟩

/-- C5 witness: an unopenable file aborts the run with zero output files. -/
theorem decode_ladder_and_fatal_abort_witness :
    create_pdf_from_csv .otherError .otherError (fun _ => true) "out" =
      .aborted :=
  (decode_ladder_and_fatal_abort.2.2.2.2.2 .otherError .otherError
    (fun _ => true) "out" rfl).1
